import Mathlib

/-
Verification development for the multi-tenant time-series measurement store
of the PVInverterLink solar backend.  The definitions below are shallow
embeddings of the Python source: the tables become lists of row structures,
the SQL queries become pure list computations, SQL numeric arithmetic is
modelled with exact rationals, and timestamps are integers counted in
seconds (local display-timezone seconds, so that DATE and EXTRACT HOUR are
integer divisions).
-/

namespace SolarBackend

/-- One row of the inverter_measurements hypertable (solar_backend/db.py,
InverterMeasurement; alembic revision b7c96dc8da99 plus d8f09ab046bf).
Times are integer seconds; yields are nullable integers. -/
structure ACRow where
  time : Int
  user_id : Int
  inverter_id : Int
  total_output_power : Int
  yield_day_wh : Option Int
  yield_total_kwh : Option Int
deriving DecidableEq

/-- One row of the dc_channel_measurements hypertable (solar_backend/db.py,
DCChannelMeasurement; alembic revision 687924fcd12d).  Float columns are
modelled as rationals. -/
structure DCRow where
  time : Int
  user_id : Int
  inverter_id : Int
  channel : Int
  name : String
  power : Rat
  voltage : Rat
  current : Rat
  yield_day_wh : Rat
  yield_total_kwh : Rat
  irradiation : Rat
deriving DecidableEq

/-- The key columns of the AC measurements table: (time, user_id, inverter_id). -/
structure ACKey where
  time : Int
  user_id : Int
  inverter_id : Int
deriving DecidableEq

/-- Key of an AC row. -/
def acKey (r : ACRow) : ACKey := ⟨r.time, r.user_id, r.inverter_id⟩

/-- Modelled from the spec: the migration chain references revision
a0d10f46b03b, which is absent from the sources; the spec declares the
primary key (time, tenant_id, device_id) on the AC measurements table, and
the ORM model InverterMeasurement in solar_backend/db.py declares exactly
that composite primary key, so the modelled schema carries the unique
constraint. -/
def acHasPrimaryKey : Bool := true

/-- INSERT ... ON CONFLICT DO NOTHING: when the table has a unique
constraint on the key and a row with the same key exists, the insert is a
silent no-op; otherwise the row is appended.  Without any unique
constraint no conflict can arise and the row is always appended. -/
def insertOnConflictDoNothing (hasPK : Bool) (db : List ACRow) (r : ACRow) : List ACRow :=
  if hasPK ∧ db.any (fun x => acKey x == acKey r) then db else db ++ [r]

/-- write_measurement (solar_backend/utils/timeseries.py): single-row
conflict-ignore insert into inverter_measurements. -/
def write_measurement (db : List ACRow) (user_id inverter_id : Int) (timestamp : Int)
    (total_output_power : Int) (yield_day_wh yield_total_kwh : Option Int) : List ACRow :=
  insertOnConflictDoNothing acHasPrimaryKey db
    ⟨timestamp, user_id, inverter_id, total_output_power, yield_day_wh, yield_total_kwh⟩

/-- DATE(time AT TIME ZONE tz): calendar-day index of a timestamp. -/
def dateOf (t : Int) : Int := t.fdiv 86400

/-- DATE_TRUNC of a timestamp to the start of its day. -/
def dayStart (now : Int) : Int := 86400 * (now.fdiv 86400)

/-- EXTRACT(HOUR FROM time AT TIME ZONE tz): hour of day, 0 to 23. -/
def hourOf (t : Int) : Int := (t.emod 86400).fdiv 3600

/-- Row filter shared by the queries: user, inverter and a time-period
predicate (the SQL WHERE clause). -/
def acMatch (uid inv : Int) (filt : Int → Bool) (r : ACRow) : Bool :=
  (r.user_id == uid) && (r.inverter_id == inv) && filt r.time

/-- Ordering of AC rows by time, used for ORDER BY time. -/
def timeLE (a b : ACRow) : Prop := a.time ≤ b.time

instance : DecidableRel timeLE := fun a b => Int.decLe a.time b.time

/-- ORDER BY time ascending. -/
def sortByTime (l : List ACRow) : List ACRow := List.insertionSort timeLE l

/-- The distinct calendar days present in a row set, ascending. -/
def dayKeys (l : List ACRow) : List Int :=
  List.insertionSort (· ≤ ·) ((l.map (fun r => dateOf r.time)).dedup)

/-- Consecutive-sample integration: for each pair of consecutive rows the
power of the current row times the time delta to the previous row, divided by
3600000 (W times s to kWh).  The first row has no previous delta and
contributes nothing. -/
def consecEnergy (l : List ACRow) : Rat :=
  ((l.zip l.tail).map
    (fun pc => (pc.2.total_output_power : Rat) * ((pc.2.time - pc.1.time : Int) : Rat) / 3600000)).sum

/-- Energy of the rows of one day: sort by time, then consecutive-sample
integration (the LAG window partitioned by day, ordered by time). -/
def dayEnergy (rows : List ACRow) : Rat := consecEnergy (sortByTime rows)

/-- ORDER BY time DESC LIMIT 1: the row with maximal time (none for an
empty set). -/
def latestAC : List ACRow → Option ACRow
  | [] => none
  | r :: rs =>
    match latestAC rs with
    | none => some r
    | some b => if b.time ≤ r.time then some r else some b

/-- yield_day_wh IS NOT NULL. -/
def hasYield (r : ACRow) : Bool := r.yield_day_wh.isSome

/-- The yield query of TimeSeriesQueryBuilder (_build_yield_query): per
calendar day the latest sample among those with non-null yield_day_wh
(DISTINCT ON date, ordered by time DESC), then keep only days whose
selected yield is strictly positive, ascending by date. -/
def yieldRows (db : List ACRow) (uid inv : Int) (filt : Int → Bool) : List (Int × Int) :=
  let m := db.filter (fun r => acMatch uid inv filt r && hasYield r)
  (dayKeys m).filterMap (fun d =>
    match latestAC (m.filter (fun r => dateOf r.time == d)) with
    | some r =>
      match r.yield_day_wh with
      | some y => if 0 < y then some (d, y) else none
      | none => none
    | none => none)

/-- The yield branch of get_energy_production: the energy of each selected day
is its yield_day_wh divided by 1000. -/
def yieldData (db : List ACRow) (uid inv : Int) (filt : Int → Bool) : List (Int × Rat) :=
  (yieldRows db uid inv filt).map (fun dy => (dy.1, (dy.2 : Rat) / 1000))

/-- The integration query of TimeSeriesQueryBuilder
(_build_integration_query): per day, integrate consecutive power samples;
only days with strictly positive energy are returned. -/
def integrationRows (db : List ACRow) (uid inv : Int) (filt : Int → Bool) : List (Int × Rat) :=
  let m := db.filter (acMatch uid inv filt)
  (dayKeys m).filterMap (fun d =>
    let e := dayEnergy (m.filter (fun r => dateOf r.time == d))
    if 0 < e then some (d, e) else none)

/-- TimeSeriesQueryBuilder.get_energy_production: use the yield data when
the number of yield-bearing days reaches the threshold, otherwise fall
back to the integration query. -/
def get_energy_production (db : List ACRow) (uid inv : Int) (filt : Int → Bool)
    (yield_threshold : Nat) : List (Int × Rat) :=
  let yd := yieldData db uid inv filt
  if yield_threshold ≤ yd.length then yd else integrationRows db uid inv filt

/-- The yield-day selection as the specification words it: the latest
sample of each day among samples whose yield_day_wh is present and
strictly positive.  Refinement comparison definition, written from the
spec text rather than from the SQL. -/
def hasPositiveYield (r : ACRow) : Bool :=
  match r.yield_day_wh with
  | some y => 0 < y
  | none => false

/-- Spec-worded variant of the yield query, for comparison with yieldRows:
restrict to positive-yield samples before picking the latest of each day. -/
def yieldRowsSpec (db : List ACRow) (uid inv : Int) (filt : Int → Bool) : List (Int × Int) :=
  let m := db.filter (fun r => acMatch uid inv filt r && hasPositiveYield r)
  (dayKeys m).filterMap (fun d =>
    match latestAC (m.filter (fun r => dateOf r.time == d)) with
    | some r => r.yield_day_wh.map (fun y => (d, y))
    | none => none)

/-- Time-filter of the period queries that start at a fixed boundary
(DATE_TRUNC day, week or month): time at or after the boundary. -/
def sinceFilter (boundary : Int) : Int → Bool := fun t => boundary ≤ t

/-- Failure of the backing store other than the expected idempotent
conflict: connection loss, constraint violation, malformed query. -/
inductive StoreError where
  | connectionLost
  | constraintViolation
  | malformedQuery
deriving DecidableEq

/-- get_daily_energy_production (timeseries.py): period of the last N
days, threshold int(days times 0.7); on a store failure the error is
absorbed and the empty list returned. -/
def get_daily_energy_production (dbRes : Except StoreError (List ACRow))
    (uid inv now : Int) (days : Nat) : List (Int × Rat) :=
  match dbRes with
  | .error _ => []
  | .ok db =>
    get_energy_production db uid inv (fun t => now - (days : Int) * 86400 ≤ t) (days * 7 / 10)

/-- get_current_week_energy_production (timeseries.py): the shared
algorithm with the start-of-week filter and threshold 3. -/
def get_current_week_energy_production (db : List ACRow) (uid inv weekStart : Int) :
    List (Int × Rat) :=
  get_energy_production db uid inv (sinceFilter weekStart) 3

/-- get_current_month_energy_production (timeseries.py): the shared
algorithm with the start-of-month filter and threshold 5. -/
def get_current_month_energy_production (db : List ACRow) (uid inv monthStart : Int) :
    List (Int × Rat) :=
  get_energy_production db uid inv (sinceFilter monthStart) 5

/-- Row filter of the today queries on the DC channel table. -/
def dcMatchToday (uid inv now : Int) (r : DCRow) : Bool :=
  (r.user_id == uid) && (r.inverter_id == inv) && (dayStart now ≤ r.time)

/-- DISTINCT ON (channel) ... ORDER BY channel, time DESC: latest DC row. -/
def latestDC : List DCRow → Option DCRow
  | [] => none
  | r :: rs =>
    match latestDC rs with
    | none => some r
    | some b => if b.time ≤ r.time then some r else some b

/-- Distinct channel numbers present in a DC row set. -/
def channelKeys (l : List DCRow) : List Int := (l.map (fun r => r.channel)).dedup

/-- get_today_total_yield (timeseries.py): sum the latest yield_day_wh of
each DC channel today; the COALESCE gives 0 for an empty set and the
caller maps a zero sum to the no-data outcome none. -/
def get_today_total_yield (dc : List DCRow) (uid inv now : Int) : Option Rat :=
  let m := dc.filter (dcMatchToday uid inv now)
  let s := ((channelKeys m).filterMap (fun c =>
    (latestDC (m.filter (fun r => r.channel == c))).map (fun r => r.yield_day_wh))).sum
  if s = 0 then none else some s

/-- The today integration fallback of get_today_energy_production: one LAG
window over all AC samples of today ordered by time. -/
def integrateToday (ac : List ACRow) (uid inv now : Int) : Rat :=
  dayEnergy (ac.filter (fun r =>
    (r.user_id == uid) && (r.inverter_id == inv) && (dayStart now ≤ r.time)))

/-- get_today_energy_production (timeseries.py): prefer the DC-channel
yield total for today, fall back to whole-day integration of AC power. -/
def get_today_energy_production (ac : List ACRow) (dc : List DCRow) (uid inv now : Int) : Rat :=
  match get_today_total_yield dc uid inv now with
  | some y => y / 1000
  | none => integrateToday ac uid inv now

/-- Outer try/except of get_today_energy_production: any store failure is
absorbed into the default 0.0. -/
def get_today_energy_production_run (res : Except StoreError (List ACRow × List DCRow))
    (uid inv now : Int) : Rat :=
  match res with
  | .error _ => 0
  | .ok p => get_today_energy_production p.1 p.2 uid inv now

/-- get_latest_value (timeseries.py): the most recent AC sample of the
inverter with time strictly inside the 24-hour staleness window; none is
the no-data outcome. -/
def get_latest_value (db : List ACRow) (uid inv now : Int) : Option (Int × Int) :=
  (latestAC (db.filter (fun r =>
    (r.user_id == uid) && (r.inverter_id == inv) && (now - 86400 < r.time)))).map
    (fun r => (r.time, r.total_output_power))

/-- MAX over a list of powers (none for the empty list). -/
def maxPower : List Int → Option Int
  | [] => none
  | p :: ps =>
    match maxPower ps with
    | none => some p
    | some m => some (max p m)

/-- get_today_maximum_power (timeseries.py): COALESCE(MAX(power), 0) over
the samples of today; on a store failure the default 0 is returned. -/
def get_today_maximum_power (dbRes : Except StoreError (List ACRow)) (uid inv now : Int) : Int :=
  match dbRes with
  | .error _ => 0
  | .ok db =>
    (maxPower ((db.filter (fun r =>
      (r.user_id == uid) && (r.inverter_id == inv) && (dayStart now ≤ r.time))).map
      (fun r => r.total_output_power))).getD 0

/-- AVG over integer powers, as exact SQL numeric arithmetic. -/
def ratAvg (l : List Int) : Rat := ((l.map (fun p => (p : Rat))).sum) / (l.length : Rat)

/-- Cast of SQL numeric to int: round half away from zero. -/
def pgRound (q : Rat) : Int := if 0 ≤ q then ⌊q + 1/2⌋ else -⌊-q + 1/2⌋

/-- get_last_hour_average (timeseries.py): COALESCE(AVG(power)::int, 0)
over the last hour; on a store failure the default 0 is returned. -/
def get_last_hour_average (dbRes : Except StoreError (List ACRow)) (uid inv now : Int) : Int :=
  match dbRes with
  | .error _ => 0
  | .ok db =>
    let powers := (db.filter (fun r =>
      (r.user_id == uid) && (r.inverter_id == inv) && (now - 3600 < r.time))).map
      (fun r => r.total_output_power)
    if powers.isEmpty then 0 else pgRound (ratAvg powers)

/-- TimeRange (timeseries.py): the five selectable window sizes. -/
inductive TimeRange where
  | oneHour
  | sixHours
  | twentyFourHours
  | sevenDays
  | thirtyDays
deriving DecidableEq

/-- TimeRange.bucket: bucket width in seconds for each range. -/
def TimeRange.bucketSeconds : TimeRange → Int
  | .oneHour => 60
  | .sixHours => 60
  | .twentyFourHours => 300
  | .sevenDays => 900
  | .thirtyDays => 3600

/-- Window length in seconds of each range (the enum value used as the
INTERVAL of the WHERE clause). -/
def TimeRange.intervalSeconds : TimeRange → Int
  | .oneHour => 3600
  | .sixHours => 21600
  | .twentyFourHours => 86400
  | .sevenDays => 604800
  | .thirtyDays => 2592000

/-- time_bucket(width, t): start of the bucket containing t. -/
def bucketStart (w t : Int) : Int := w * (t.fdiv w)

/-- get_power_timeseries (timeseries.py): average power per time bucket
over the requested window, ordered ascending by bucket time; the empty
result raises the distinct no-data outcome instead of returning a list. -/
def get_power_timeseries (db : List ACRow) (uid inv : Int) (tr : TimeRange) (now : Int) :
    Except Unit (List (Int × Int)) :=
  let m := db.filter (fun r =>
    (r.user_id == uid) && (r.inverter_id == inv) && (now - tr.intervalSeconds < r.time))
  let keys := List.insertionSort (· ≤ ·)
    ((m.map (fun r => bucketStart tr.bucketSeconds r.time)).dedup)
  let pts := keys.map (fun k =>
    (k, pgRound (ratAvg ((m.filter (fun r => bucketStart tr.bucketSeconds r.time == k)).map
      (fun r => r.total_output_power)))))
  if pts.isEmpty then .error () else .ok pts

/-- The AC rows of the current day for one inverter. -/
def todayRows (db : List ACRow) (uid inv now : Int) : List ACRow :=
  db.filter (fun r =>
    (r.user_id == uid) && (r.inverter_id == inv) && (dayStart now ≤ r.time))

/-- Distinct hour-of-day keys of a row set, ascending. -/
def hourKeys (l : List ACRow) : List Int :=
  List.insertionSort (· ≤ ·) ((l.map (fun r => hourOf r.time)).dedup)

/-- get_hourly_energy_production (timeseries.py): the LAG window is
partitioned by hour of day, so deltas exist only between consecutive
samples of the same hour; hours whose every sample has a null delta (a
single sample) produce no group. -/
def get_hourly_energy_production (db : List ACRow) (uid inv now : Int) : List (Int × Rat) :=
  let m := todayRows db uid inv now
  (hourKeys m).filterMap (fun h =>
    let rows := m.filter (fun r => hourOf r.time == h)
    if 2 ≤ rows.length then some (h, dayEnergy rows) else none)

/-- Total energy carried by a day-energy result list. -/
def listTotal (l : List (Int × Rat)) : Rat := (l.map (fun p => p.2)).sum

/-- The two storage backends the tenant context guard distinguishes:
SQLite (tests, no row-level security) and PostgreSQL. -/
inductive Backend where
  | sqlite
  | postgres
deriving DecidableEq

/-- Session-level statements the guard can execute. -/
inductive RlsStmt where
  | setUser (uid : Int)
  | resetUser
deriving DecidableEq

/-- Database session state: the bound tenant identifier and the list of
executed session statements. -/
structure Sess where
  ctx : Option Int
  log : List RlsStmt
deriving DecidableEq

/-- Exit of the guarded body: normal value, exception, or cancellation. -/
inductive FnExit (α : Type) where
  | ok (a : α)
  | exc
  | cancelled
deriving DecidableEq

/-- Exit of the whole guarded run: the exit of the body, or a failure of the
set-tenant step itself. -/
inductive RunExit (α : Type) where
  | ok (a : α)
  | exc
  | cancelled
  | setFailed
deriving DecidableEq

/-- Lift of a body exit to a run exit. -/
def liftExit : FnExit α → RunExit α
  | .ok a => .ok a
  | .exc => .exc
  | .cancelled => .cancelled

/-- set_rls_context (timeseries.py): skipped on SQLite; on PostgreSQL it
executes SET app.current_user_id, which itself may fail. -/
def set_rls_context (b : Backend) (setOk : Bool) (uid : Int) (s : Sess) : Except Unit Sess :=
  match b with
  | .sqlite => .ok s
  | .postgres =>
    if setOk then .ok ⟨some uid, s.log ++ [.setUser uid]⟩ else .error ()

/-- reset_rls_context (timeseries.py): skipped on SQLite; on PostgreSQL it
executes RESET app.current_user_id. -/
def reset_rls_context (b : Backend) (s : Sess) : Sess :=
  match b with
  | .sqlite => s
  | .postgres => ⟨none, s.log ++ [.resetUser]⟩

/-- rls_context (timeseries.py): try set, run the body, and reset in the
finally block on every exit path; a failing set skips the body, still runs
the finally reset, and propagates the failure. -/
def rls_context (b : Backend) (setOk : Bool) (uid : Int)
    (fn : Sess → FnExit α × Sess) (s : Sess) : RunExit α × Sess :=
  match set_rls_context b setOk uid s with
  | .error _ => (.setFailed, reset_rls_context b s)
  | .ok s1 =>
    let r := fn s1
    (liftExit r.1, reset_rls_context b r.2)

/-- Prop form of the staleness-window condition of get_latest_value. -/
def freshSample (uid inv now : Int) (r : ACRow) : Prop :=
  r.user_id = uid ∧ r.inverter_id = inv ∧ now - 86400 < r.time

instance (uid inv now : Int) (r : ACRow) : Decidable (freshSample uid inv now r) :=
  inferInstanceAs (Decidable (_ ∧ _ ∧ _))

/-- An empty latest-row selection means an empty row set. -/
theorem latestAC_eq_none : ∀ {l : List ACRow}, latestAC l = none ↔ l = []
  | [] => by simp [latestAC]
  | r :: rs => by
    simp only [latestAC]
    cases h : latestAC rs with
    | none => simp
    | some b => by_cases hb : b.time ≤ r.time <;> simp [hb]

/-- The selected latest row is a member of the row set. -/
theorem latestAC_mem : ∀ {l : List ACRow} {r : ACRow}, latestAC l = some r → r ∈ l := by
  intro l
  induction l with
  | nil => intro r h; simp [latestAC] at h
  | cons x xs ih =>
    intro r h
    simp only [latestAC] at h
    cases hx : latestAC xs with
    | none => simp only [hx] at h; cases h; exact List.mem_cons_self x xs
    | some b =>
      simp only [hx] at h
      by_cases hb : b.time ≤ x.time
      · rw [if_pos hb] at h; cases h; exact List.mem_cons_self x xs
      · rw [if_neg hb] at h; cases h; exact List.mem_cons_of_mem x (ih hx)

/-- The selected latest row has maximal time in the row set. -/
theorem latestAC_max : ∀ {l : List ACRow} {r : ACRow},
    latestAC l = some r → ∀ x ∈ l, x.time ≤ r.time := by
  intro l
  induction l with
  | nil => intro r h; simp [latestAC] at h
  | cons x xs ih =>
    intro r h y hy
    simp only [latestAC] at h
    cases hx : latestAC xs with
    | none =>
      simp only [hx] at h; cases h
      rcases List.mem_cons.mp hy with hyx | hyxs
      · exact hyx ▸ le_refl _
      · exact absurd (latestAC_eq_none.mp hx ▸ hyxs) (List.not_mem_nil y)
    | some b =>
      simp only [hx] at h
      by_cases hb : b.time ≤ x.time
      · rw [if_pos hb] at h; cases h
        rcases List.mem_cons.mp hy with hyx | hyxs
        · exact hyx ▸ le_refl _
        · exact le_trans (ih hx y hyxs) hb
      · rw [if_neg hb] at h; cases h
        rcases List.mem_cons.mp hy with hyx | hyxs
        · exact hyx ▸ le_of_not_le hb
        · exact ih hx y hyxs

/-- Membership in the ascending day-key list of a row set. -/
theorem mem_dayKeys {l : List ACRow} {d : Int} :
    d ∈ dayKeys l ↔ ∃ r ∈ l, dateOf r.time = d := by
  unfold dayKeys
  rw [(List.perm_insertionSort _ _).mem_iff, List.mem_dedup, List.mem_map]

/-- Membership in a filterMap over keys whose function tags results with
the key itself. -/
theorem mem_filterMap_keys {β : Type} {keys : List Int} {f : Int → Option (Int × β)}
    (hf : ∀ d p, f d = some p → p.1 = d) {p : Int × β} :
    p ∈ keys.filterMap f ↔ p.1 ∈ keys ∧ f p.1 = some p := by
  rw [List.mem_filterMap]
  constructor
  · rintro ⟨d, hd, hfd⟩
    have h1 := hf d p hfd
    subst h1
    exact ⟨hd, hfd⟩
  · rintro ⟨h1, h2⟩
    exact ⟨p.1, h1, h2⟩

/-- C1: under the primary key (time, tenant, device) of the AC table, a
second write of an existing key with a different power value leaves the
stored data unchanged: the second conflict-ignore insert is a silent
no-op and the key still carries exactly the row of the first write. -/
theorem C1_duplicate_write_first_wins
    (db : List ACRow) (uid inv t p1 p2 : Int) (y1 z1 y2 z2 : Option Int)
    (hfresh : db.filter (fun r => acKey r == ACKey.mk t uid inv) = []) :
    write_measurement (write_measurement db uid inv t p1 y1 z1) uid inv t p2 y2 z2
      = write_measurement db uid inv t p1 y1 z1
    ∧ (write_measurement (write_measurement db uid inv t p1 y1 z1) uid inv t p2 y2 z2).filter
        (fun r => acKey r == ACKey.mk t uid inv)
      = [⟨t, uid, inv, p1, y1, z1⟩] := by
  have hnone : ∀ x ∈ db, ¬(acKey x == ACKey.mk t uid inv) = true := by
    intro x hx hcon
    have := List.filter_eq_nil_iff.mp hfresh x hx
    exact this hcon
  have hany : db.any (fun x => acKey x == acKey ⟨t, uid, inv, p1, y1, z1⟩) = false := by
    rw [List.any_eq_false]
    intro x hx
    exact hnone x hx
  have h1 : write_measurement db uid inv t p1 y1 z1 = db ++ [⟨t, uid, inv, p1, y1, z1⟩] := by
    unfold write_measurement insertOnConflictDoNothing
    rw [if_neg]
    rintro ⟨-, hc⟩
    rw [hany] at hc
    exact Bool.false_ne_true hc
  have h2 : write_measurement (db ++ [⟨t, uid, inv, p1, y1, z1⟩]) uid inv t p2 y2 z2
      = db ++ [⟨t, uid, inv, p1, y1, z1⟩] := by
    unfold write_measurement insertOnConflictDoNothing
    rw [if_pos]
    refine ⟨rfl, ?_⟩
    rw [List.any_append]
    apply Bool.or_eq_true_iff.mpr
    right
    simp [List.any_cons, acKey]
  constructor
  · rw [h1, h2]
  · rw [h1, h2, List.filter_append, hfresh]
    simp [acKey]

/-- C1 spot check: two writes of key (time 7, tenant 1, device 5) with
powers 120 then 999 on an empty store leave one row carrying power 120. -/
theorem C1_duplicate_write_first_wins_spot :
    ([] : List ACRow).filter (fun r => acKey r == ACKey.mk 7 1 5) = []
    ∧ (write_measurement (write_measurement [] 1 5 7 120 none none) 1 5 7 999 none none
        = write_measurement [] 1 5 7 120 none none
      ∧ (write_measurement (write_measurement [] 1 5 7 120 none none) 1 5 7 999 none none).filter
          (fun r => acKey r == ACKey.mk 7 1 5)
        = [⟨7, 1, 5, 120, none, none⟩]) :=
  ⟨rfl, C1_duplicate_write_first_wins [] 1 5 7 120 999 none none none none rfl⟩

/-- C2: get_energy_production returns the yield branch exactly when the
number of yield-bearing days reaches the threshold, returns the
integration branch otherwise, and its result is always wholly one of the
two sources, never a mixture. -/
theorem C2_threshold_all_or_nothing (db : List ACRow) (uid inv : Int)
    (filt : Int → Bool) (thr : Nat) :
    (thr ≤ (yieldData db uid inv filt).length →
      get_energy_production db uid inv filt thr = yieldData db uid inv filt)
    ∧ ((yieldData db uid inv filt).length < thr →
      get_energy_production db uid inv filt thr = integrationRows db uid inv filt)
    ∧ (get_energy_production db uid inv filt thr = yieldData db uid inv filt
      ∨ get_energy_production db uid inv filt thr = integrationRows db uid inv filt) := by
  refine ⟨fun h => ?_, fun h => ?_, ?_⟩
  · unfold get_energy_production
    exact if_pos h
  · unfold get_energy_production
    exact if_neg (Nat.not_le_of_lt h)
  · unfold get_energy_production
    by_cases h : thr ≤ (yieldData db uid inv filt).length
    · exact Or.inl (if_pos h)
    · exact Or.inr (if_neg h)

/-- C2 spot check: one yield-bearing day against threshold 1 takes the
yield branch. -/
theorem C2_threshold_all_or_nothing_spot :
    1 ≤ (yieldData [⟨0, 1, 1, 10, some 1000, none⟩] 1 1 (fun _ => true)).length
    ∧ get_energy_production [⟨0, 1, 1, 10, some 1000, none⟩] 1 1 (fun _ => true) 1
      = yieldData [⟨0, 1, 1, 10, some 1000, none⟩] 1 1 (fun _ => true) :=
  ⟨by decide, (C2_threshold_all_or_nothing _ 1 1 _ 1).1 (by decide)⟩

/-- Two samples of one day: a strictly positive yield at time 100 followed
by a later zero yield at time 200. -/
def db3 : List ACRow := [⟨100, 1, 1, 50, some 500, none⟩, ⟨200, 1, 1, 0, some 0, none⟩]

/-- C3 counterexample: on a day with a strictly positive yield sample
followed by a later zero yield sample, the yield query of the code drops
the day entirely (the latest non-null sample is selected first and its
zero yield is then filtered out), while the selection the claim describes
keeps the day with the positive value. -/
theorem C3_later_zero_yield_counterexample :
    yieldRows db3 1 1 (fun _ => true) = []
    ∧ yieldRowsSpec db3 1 1 (fun _ => true) = [(0, 500)] := by decide

/-- C3 amended: a day contributes a yield entry exactly when the latest
sample of that day among the samples with non-null yield has a strictly
positive yield, and the entry carries the value of that sample; days whose
yields are all absent, or whose latest non-null yield is zero or
negative, are excluded, even when an earlier sample of the day carried a
strictly positive yield. -/
theorem C3_yield_day_selection (db : List ACRow) (uid inv : Int) (filt : Int → Bool)
    (d y : Int) :
    (d, y) ∈ yieldRows db uid inv filt ↔
      (0 < y ∧ ∃ r, latestAC ((db.filter (fun r => acMatch uid inv filt r && hasYield r)).filter
          (fun r => dateOf r.time == d)) = some r ∧ r.yield_day_wh = some y) := by
  unfold yieldRows
  rw [mem_filterMap_keys]
  · constructor
    · rintro ⟨hd, hf⟩
      cases hl : latestAC ((db.filter (fun r => acMatch uid inv filt r && hasYield r)).filter
          (fun r => dateOf r.time == d)) with
      | none => rw [hl] at hf; cases hf
      | some r =>
        simp only [hl] at hf
        cases hy : r.yield_day_wh with
        | none => rw [hy] at hf; cases hf
        | some y0 =>
          simp only [hy] at hf
          by_cases h0 : 0 < y0
          · rw [if_pos h0] at hf
            cases hf
            exact ⟨h0, r, rfl, hy⟩
          · rw [if_neg h0] at hf; cases hf
    · rintro ⟨h0, r, hl, hy⟩
      have hrmem := latestAC_mem hl
      have hrm := List.mem_filter.mp hrmem
      refine ⟨?_, ?_⟩
      · exact mem_dayKeys.mpr ⟨r, hrm.1, by simpa using hrm.2⟩
      · simp only [hl, hy, if_pos h0]
  · intro d0 p hp
    cases hl : latestAC ((db.filter (fun r => acMatch uid inv filt r && hasYield r)).filter
        (fun r => dateOf r.time == d0)) with
    | none => rw [hl] at hp; cases hp
    | some r =>
      simp only [hl] at hp
      cases hy : r.yield_day_wh with
      | none => rw [hy] at hp; cases hp
      | some y0 =>
        simp only [hy] at hp
        by_cases h0 : 0 < y0
        · rw [if_pos h0] at hp; cases hp; rfl
        · rw [if_neg h0] at hp; cases hp

/-- C3 spot check: a single positive-yield sample makes its day a
yield-bearing day carried by that sample. -/
theorem C3_yield_day_selection_spot :
    (0, 1000) ∈ yieldRows [⟨0, 1, 1, 10, some 1000, none⟩] 1 1 (fun _ => true)
    ∧ (0 < (1000 : Int)
      ∧ ∃ r, latestAC ((([⟨0, 1, 1, 10, some 1000, none⟩] : List ACRow).filter
          (fun r => acMatch 1 1 (fun _ => true) r && hasYield r)).filter
          (fun r => dateOf r.time == 0)) = some r ∧ r.yield_day_wh = some 1000) :=
  ⟨by decide, (C3_yield_day_selection [⟨0, 1, 1, 10, some 1000, none⟩] 1 1 (fun _ => true)
    0 1000).mp (by decide)⟩

/-- One day with three power samples: 0 W at time 0, 100 W one hour
later, 0 W two hours later. -/
def db4 : List ACRow :=
  [⟨0, 1, 1, 0, none, none⟩, ⟨3600, 1, 1, 100, none, none⟩, ⟨7200, 1, 1, 0, none, none⟩]

/-- C4: every entry of the integration fallback carries a strictly
positive energy equal to the consecutive-delta integration of the day
samples sorted by time (the first sample of the day contributing no
delta); a day of matching samples with strictly positive integrated
energy is present; and the three-sample example day integrates to
exactly one tenth of a kWh. -/
theorem C4_integration_fallback :
    (∀ (db : List ACRow) (uid inv : Int) (filt : Int → Bool) (d : Int) (e : Rat),
      (d, e) ∈ integrationRows db uid inv filt →
        0 < e ∧ e = dayEnergy ((db.filter (acMatch uid inv filt)).filter
          (fun r => dateOf r.time == d)))
    ∧ (∀ (db : List ACRow) (uid inv : Int) (filt : Int → Bool) (d : Int),
      (∃ r ∈ db.filter (acMatch uid inv filt), dateOf r.time = d) →
      0 < dayEnergy ((db.filter (acMatch uid inv filt)).filter (fun r => dateOf r.time == d)) →
      (d, dayEnergy ((db.filter (acMatch uid inv filt)).filter (fun r => dateOf r.time == d)))
        ∈ integrationRows db uid inv filt)
    ∧ integrationRows db4 1 1 (fun _ => true) = [(0, 1/10)] := by
  have hkey : ∀ (db : List ACRow) (uid inv : Int) (filt : Int → Bool) (d0 : Int)
      (p : Int × Rat),
      (if 0 < dayEnergy ((db.filter (acMatch uid inv filt)).filter
          (fun r => dateOf r.time == d0)) then
        some (d0, dayEnergy ((db.filter (acMatch uid inv filt)).filter
          (fun r => dateOf r.time == d0))) else none) = some p → p.1 = d0 := by
    intro db uid inv filt d0 p hp
    by_cases h : 0 < dayEnergy ((db.filter (acMatch uid inv filt)).filter
        (fun r => dateOf r.time == d0))
    · rw [if_pos h] at hp; cases hp; rfl
    · rw [if_neg h] at hp; cases hp
  refine ⟨?_, ?_, ?_⟩
  · intro db uid inv filt d e hmem
    simp only [integrationRows] at hmem
    rw [mem_filterMap_keys (hkey db uid inv filt)] at hmem
    obtain ⟨hd, hf⟩ := hmem
    by_cases h0 : 0 < dayEnergy ((db.filter (acMatch uid inv filt)).filter
        (fun r => dateOf r.time == d))
    · rw [if_pos h0] at hf
      simp only [Option.some.injEq, Prod.mk.injEq] at hf
      obtain ⟨-, h2⟩ := hf
      exact ⟨h2 ▸ h0, h2.symm⟩
    · rw [if_neg h0] at hf; cases hf
  · rintro db uid inv filt d ⟨r, hr, hrd⟩ h0
    simp only [integrationRows]
    rw [mem_filterMap_keys (hkey db uid inv filt)]
    exact ⟨mem_dayKeys.mpr ⟨r, hr, hrd⟩, if_pos h0⟩
  · have hm : db4.filter (acMatch 1 1 (fun _ => true)) = db4 := by decide
    have hk : dayKeys db4 = [0] := by decide
    have hf : db4.filter (fun r => dateOf r.time == (0 : Int)) = db4 := by decide
    have hs : sortByTime db4 = db4 := by decide
    have he : dayEnergy db4 = 1/10 := by
      rw [dayEnergy, hs]
      norm_num [consecEnergy, db4, List.zip_cons_cons, List.zip_nil_right]
    simp only [integrationRows, hm, hk, List.filterMap_cons, List.filterMap_nil, hf, he]
    norm_num

/-- C4 spot check: the entry of the example day is in the result and carries
its integrated energy. -/
theorem C4_integration_fallback_spot :
    (0, (1 : Rat)/10) ∈ integrationRows db4 1 1 (fun _ => true)
    ∧ (0 < (1 : Rat)/10 ∧ (1 : Rat)/10 = dayEnergy ((db4.filter (acMatch 1 1
        (fun _ => true))).filter (fun r => dateOf r.time == 0))) :=
  have hmem : (0, (1 : Rat)/10) ∈ integrationRows db4 1 1 (fun _ => true) := by
    rw [C4_integration_fallback.2.2]
    exact List.mem_singleton.mpr rfl
  ⟨hmem, C4_integration_fallback.1 db4 1 1 (fun _ => true) 0 ((1 : Rat)/10) hmem⟩

/-- A single DC-channel sample of today carrying a daily yield of 2000 Wh. -/
def dc5 : List DCRow := [⟨1000, 1, 1, 0, "a", 0, 0, 0, 2000, 0, 0⟩]

/-- The DC yield total of the dc5 store for today. -/
theorem dc5_today_yield : get_today_total_yield dc5 1 1 1000 = some 2000 := by
  have h1 : dc5.filter (dcMatchToday 1 1 1000) = dc5 := by decide
  have h2 : channelKeys dc5 = [0] := by decide
  have h3 : dc5.filter (fun r => r.channel == (0 : Int)) = dc5 := by decide
  have h4 : latestDC dc5 = some ⟨1000, 1, 1, 0, "a", 0, 0, 0, 2000, 0, 0⟩ := by decide
  simp only [get_today_total_yield, h1, h2, List.filterMap_cons, List.filterMap_nil, h3, h4,
    Option.map_some]
  norm_num [List.sum_cons, List.sum_nil]

/-- C5 counterexample: a store whose AC table is empty while a DC channel
reports 2000 Wh today makes the today query return 2 kWh, while the
shared get_energy_production algorithm over the period of today returns the
empty result whatever threshold is chosen; no threshold instantiates the
shared algorithm to the today query. -/
theorem C5_today_not_an_instance :
    ¬ ∃ thr : Nat, listTotal (get_energy_production [] 1 1 (sinceFilter (dayStart 1000)) thr)
        = get_today_energy_production [] dc5 1 1 1000 := by
  rintro ⟨thr, h⟩
  have h0 : get_energy_production ([] : List ACRow) 1 1 (sinceFilter (dayStart 1000)) thr
      = [] := by
    show (if thr ≤ (yieldData [] 1 1 (sinceFilter (dayStart 1000))).length
      then yieldData [] 1 1 (sinceFilter (dayStart 1000))
      else integrationRows [] 1 1 (sinceFilter (dayStart 1000))) = []
    split <;> rfl
  have h1 : get_today_energy_production [] dc5 1 1 1000 = 2000 / 1000 := by
    unfold get_today_energy_production
    rw [dc5_today_yield]
  rw [h0, h1] at h
  norm_num [listTotal] at h

/-- C5 amended: the current-week and current-month queries are instances
of the shared two-branch get_energy_production algorithm with thresholds
3 and 5; the today query is not such an instance: it prefers the summed
latest-per-channel DC yield for today, dividing by 1000 when that total
is present, and falls back to whole-day integration of the AC power
samples when it is absent. -/
theorem C5_period_query_structure :
    (∀ (db : List ACRow) (uid inv ws : Int),
      get_current_week_energy_production db uid inv ws
        = get_energy_production db uid inv (sinceFilter ws) 3)
    ∧ (∀ (db : List ACRow) (uid inv ms : Int),
      get_current_month_energy_production db uid inv ms
        = get_energy_production db uid inv (sinceFilter ms) 5)
    ∧ (∀ (ac : List ACRow) (dc : List DCRow) (uid inv now : Int),
      (get_today_total_yield dc uid inv now = none →
        get_today_energy_production ac dc uid inv now = integrateToday ac uid inv now)
      ∧ ∀ y, get_today_total_yield dc uid inv now = some y →
        get_today_energy_production ac dc uid inv now = y / 1000) := by
  refine ⟨fun _ _ _ _ => rfl, fun _ _ _ _ => rfl, fun ac dc uid inv now => ⟨?_, ?_⟩⟩
  · intro h
    unfold get_today_energy_production
    rw [h]
  · intro y h
    unfold get_today_energy_production
    rw [h]

/-- C5 spot check: with the dc5 store the today query takes the DC yield
branch and returns the yield total divided by 1000. -/
theorem C5_period_query_structure_spot :
    get_today_total_yield dc5 1 1 1000 = some 2000
    ∧ get_today_energy_production [] dc5 1 1 1000 = 2000 / 1000 :=
  ⟨dc5_today_yield,
    (C5_period_query_structure.2.2 [] dc5 1 1 1000).2 2000 dc5_today_yield⟩

/-- C6: the tenant context guard clears the session tenant identifier on
every exit path of the body (value, exception or cancellation, as the
universally quantified body covers all three), propagates the exit
of the body; when the set-tenant step fails, the body is never consulted (the
run is identical for any two bodies) and the failure propagates; and on
the SQLite backend the set and reset steps are skipped, leaving the
session state exactly as the body left it, while the body still runs. -/
theorem C6_rls_guard (α : Type) (uid : Int) (fn g : Sess → FnExit α × Sess) (s : Sess)
    (setOk : Bool) :
    (rls_context Backend.postgres true uid fn s).2.ctx = none
    ∧ (rls_context Backend.postgres true uid fn s).1
        = liftExit (fn ⟨some uid, s.log ++ [RlsStmt.setUser uid]⟩).1
    ∧ rls_context Backend.postgres false uid fn s = rls_context Backend.postgres false uid g s
    ∧ (rls_context Backend.postgres false uid fn s).1 = RunExit.setFailed
    ∧ rls_context Backend.sqlite setOk uid fn s = (liftExit (fn s).1, (fn s).2) :=
  ⟨rfl, rfl, rfl, rfl, rfl⟩

/-- C7: the latest-value query returns the no-data outcome exactly when
no sample of the tenant and device lies strictly inside the 24-hour
staleness window, even when older samples exist; and any returned pair is
the time and power of a sample inside the window whose time is maximal
among the samples of the window. -/
theorem C7_latest_value_staleness (db : List ACRow) (uid inv now : Int) :
    (get_latest_value db uid inv now = none ↔ ∀ r ∈ db, ¬ freshSample uid inv now r)
    ∧ ∀ t p, get_latest_value db uid inv now = some (t, p) →
        ∃ r ∈ db, freshSample uid inv now r ∧ r.time = t ∧ r.total_output_power = p
          ∧ ∀ q ∈ db, freshSample uid inv now q → q.time ≤ t := by
  have hpred : ∀ r : ACRow,
      ((r.user_id == uid) && (r.inverter_id == inv) && decide (now - 86400 < r.time)) = true
        ↔ freshSample uid inv now r := by
    intro r
    simp [freshSample, and_assoc]
  constructor
  · constructor
    · intro hnone r hr hfresh
      cases hl : latestAC (db.filter (fun r =>
          (r.user_id == uid) && (r.inverter_id == inv) && decide (now - 86400 < r.time))) with
      | some b =>
        unfold get_latest_value at hnone
        rw [hl] at hnone
        cases hnone
      | none =>
        have hnil := latestAC_eq_none.mp hl
        exact List.filter_eq_nil_iff.mp hnil r hr ((hpred r).mpr hfresh)
    · intro hall
      unfold get_latest_value
      cases hl : latestAC (db.filter (fun r =>
          (r.user_id == uid) && (r.inverter_id == inv) && decide (now - 86400 < r.time))) with
      | none => rfl
      | some b =>
        exfalso
        have hb := List.mem_filter.mp (latestAC_mem hl)
        exact hall b hb.1 ((hpred b).mp hb.2)
  · intro t p hsome
    unfold get_latest_value at hsome
    cases hl : latestAC (db.filter (fun r =>
        (r.user_id == uid) && (r.inverter_id == inv) && decide (now - 86400 < r.time))) with
    | none => rw [hl] at hsome; cases hsome
    | some b =>
      rw [hl] at hsome
      simp only [Option.map_some', Option.some.injEq, Prod.mk.injEq] at hsome
      obtain ⟨h1, h2⟩ := hsome
      have hb := List.mem_filter.mp (latestAC_mem hl)
      refine ⟨b, hb.1, (hpred b).mp hb.2, h1, h2, ?_⟩
      intro q hq hqf
      have hmax := latestAC_max hl q (List.mem_filter.mpr ⟨hq, (hpred q).mpr hqf⟩)
      exact h1 ▸ hmax

/-- C7 spot check: a sample at time 0 is inside the 24-hour window of the
instant 50 and is returned as the latest value. -/
theorem C7_latest_value_staleness_spot :
    get_latest_value [⟨0, 1, 5, 120, none, none⟩] 1 5 50 = some (0, 120)
    ∧ ∃ r ∈ ([⟨0, 1, 5, 120, none, none⟩] : List ACRow), freshSample 1 5 50 r
        ∧ r.time = 0 ∧ r.total_output_power = 120
        ∧ ∀ q ∈ ([⟨0, 1, 5, 120, none, none⟩] : List ACRow),
            freshSample 1 5 50 q → q.time ≤ 0 :=
  ⟨by decide, (C7_latest_value_staleness [⟨0, 1, 5, 120, none, none⟩] 1 5 50).2 0 120
    (by decide)⟩

/-- C8: on any store failure the dashboard statistics helpers absorb the
error at the call site instead of propagating it: the maximum-power and
last-hour-average helpers return the default 0, the scalar today
energy-production query returns 0.0, and the list-valued daily
energy-production query returns its empty default. -/
theorem C8_store_error_defaults (e : StoreError) (uid inv now : Int) (days : Nat) :
    get_today_maximum_power (Except.error e) uid inv now = 0
    ∧ get_last_hour_average (Except.error e) uid inv now = 0
    ∧ get_today_energy_production_run (Except.error e) uid inv now = 0
    ∧ get_daily_energy_production (Except.error e) uid inv now days = [] :=
  ⟨rfl, rfl, rfl, rfl⟩

/-- A sorted deduplication is empty exactly when its source list is. -/
theorem sortdedup_nil (l : List Int) : List.insertionSort (· ≤ ·) l.dedup = [] ↔ l = [] := by
  constructor
  · intro h
    have hlen := (List.perm_insertionSort (· ≤ ·) l.dedup).length_eq
    rw [h] at hlen
    exact (List.dedup_eq_nil l).mp (List.length_eq_zero.mp hlen.symm)
  · intro h
    subst h
    rfl

/-- Two samples of 100 W and 200 W falling in the same 5-minute bucket. -/
def db9 : List ACRow := [⟨0, 1, 1, 100, none, none⟩, ⟨60, 1, 1, 200, none, none⟩]

/-- A sorted deduplicated Int list is strictly ascending. -/
theorem sortdedup_sorted (l : List Int) :
    List.Sorted (· < ·) (List.insertionSort (· ≤ ·) l.dedup) :=
  List.Sorted.lt_of_le (List.sorted_insertionSort _ _)
    (((List.perm_insertionSort _ _).nodup_iff).mpr (List.nodup_dedup _))

/-- Mapping a key-tagging function and then projecting the key is the
identity on the key list. -/
theorem map_fst_keyTag {β : Type} (keys : List Int) (g : Int → β) :
    (keys.map (fun k => (k, g k))).map Prod.fst = keys := by
  rw [List.map_map]
  exact List.map_id keys

/-- The no-data branch of the bucketed query is taken exactly on the
empty point list. -/
theorem iteEmpty_eq_error {pts : List (Int × Int)} :
    (if pts.isEmpty then (Except.error () : Except Unit (List (Int × Int)))
      else Except.ok pts) = Except.error () ↔ pts = [] := by
  cases pts <;> simp [List.isEmpty]

/-- The data branch of the bucketed query returns the point list itself. -/
theorem iteEmpty_eq_ok {pts l : List (Int × Int)} :
    (if pts.isEmpty then (Except.error () : Except Unit (List (Int × Int)))
      else Except.ok pts) = Except.ok l → pts = l := by
  cases pts <;> simp [List.isEmpty]

/-- C9: the range-to-bucket table is 1h to 1min, 6h to 1min, 24h to 5min,
7d to 15min, 30d to 1h; the query raises the distinct no-data outcome
exactly when the window holds no sample; a returned list is strictly
ascending in bucket time and each bucket carries the rounded average of
the window samples falling in it; and two samples of 100 W and 200 W in
one 5-minute bucket average to 150. -/
theorem C9_power_timeseries (db : List ACRow) (uid inv now : Int) (tr : TimeRange) :
    (TimeRange.bucketSeconds TimeRange.oneHour = 60
      ∧ TimeRange.bucketSeconds TimeRange.sixHours = 60
      ∧ TimeRange.bucketSeconds TimeRange.twentyFourHours = 300
      ∧ TimeRange.bucketSeconds TimeRange.sevenDays = 900
      ∧ TimeRange.bucketSeconds TimeRange.thirtyDays = 3600)
    ∧ (get_power_timeseries db uid inv tr now = Except.error () ↔
        ∀ r ∈ db, ¬(r.user_id = uid ∧ r.inverter_id = inv
          ∧ now - TimeRange.intervalSeconds tr < r.time))
    ∧ (∀ l, get_power_timeseries db uid inv tr now = Except.ok l →
        List.Sorted (· < ·) (l.map Prod.fst)
        ∧ ∀ kp ∈ l, kp.2 = pgRound (ratAvg (((db.filter (fun r =>
            (r.user_id == uid) && (r.inverter_id == inv)
              && decide (now - TimeRange.intervalSeconds tr < r.time))).filter
            (fun r => bucketStart (TimeRange.bucketSeconds tr) r.time == kp.1)).map
            (fun r => r.total_output_power))))
    ∧ get_power_timeseries db9 1 1 TimeRange.twentyFourHours 80000
        = Except.ok [(0, 150)] := by
  have hpred : ∀ r : ACRow,
      ((r.user_id == uid) && (r.inverter_id == inv)
        && decide (now - TimeRange.intervalSeconds tr < r.time)) = true
        ↔ (r.user_id = uid ∧ r.inverter_id = inv
          ∧ now - TimeRange.intervalSeconds tr < r.time) := by
    intro r
    simp [and_assoc]
  refine ⟨⟨rfl, rfl, rfl, rfl, rfl⟩, ?_, ?_, ?_⟩
  · simp only [get_power_timeseries]
    rw [iteEmpty_eq_error, List.map_eq_nil_iff, sortdedup_nil, List.map_eq_nil_iff,
      List.filter_eq_nil_iff]
    constructor
    · intro h r hr hP
      exact h r hr ((hpred r).mpr hP)
    · intro h r hr hB
      exact h r hr ((hpred r).mp hB)
  · intro l hok
    simp only [get_power_timeseries] at hok
    have hpts := iteEmpty_eq_ok hok
    subst hpts
    constructor
    · rw [map_fst_keyTag]
      exact sortdedup_sorted _
    · intro kp hkp
      obtain ⟨k, hk, hfk⟩ := List.mem_map.mp hkp
      cases hfk
      rfl
  · have hm9 : db9.filter (fun r => (r.user_id == (1 : Int)) && (r.inverter_id == (1 : Int))
        && decide ((80000 : Int) - TimeRange.intervalSeconds TimeRange.twentyFourHours
          < r.time)) = db9 := by decide
    have hk9 : List.insertionSort (· ≤ ·) ((db9.map (fun r =>
        bucketStart (TimeRange.bucketSeconds TimeRange.twentyFourHours) r.time)).dedup)
        = [0] := by decide
    have hf9 : db9.filter (fun r =>
        bucketStart (TimeRange.bucketSeconds TimeRange.twentyFourHours) r.time == (0 : Int))
        = db9 := by decide
    have hp9 : db9.map (fun r => r.total_output_power) = [100, 200] := by decide
    have havg : pgRound (ratAvg [100, 200]) = 150 := by
      unfold pgRound ratAvg
      norm_num
    simp only [get_power_timeseries, hm9, hk9, hf9, hp9, List.map_cons, List.map_nil, havg]
    rfl

/-- C9 spot check: the example window returns its single bucket, to which
the ordering guarantee of the theorem applies. -/
theorem C9_power_timeseries_spot :
    get_power_timeseries db9 1 1 TimeRange.twentyFourHours 80000 = Except.ok [(0, 150)]
    ∧ List.Sorted (· < ·) ([((0 : Int), (150 : Int))].map Prod.fst) :=
  have hok := (C9_power_timeseries db9 1 1 80000 TimeRange.twentyFourHours).2.2.2
  ⟨hok, ((C9_power_timeseries db9 1 1 80000 TimeRange.twentyFourHours).2.2.1 [(0, 150)] hok).1⟩

/-- Three samples of one day: 100 W at 9:00, 200 W at 9:30, 300 W at
10:15 local time. -/
def db10 : List ACRow :=
  [⟨32400, 1, 1, 100, none, none⟩, ⟨34200, 1, 1, 200, none, none⟩,
    ⟨36900, 1, 1, 300, none, none⟩]

/-- C10: every entry of the hourly production result belongs to an hour
of day holding at least two samples and equals the consecutive-delta
integration of exactly the samples of that hour, so the first sample of each
hour contributes nothing and no delta crosses an hour boundary; on the
example day the 9:30-to-10:15 interval is credited to neither hour: the
result only carries hour 9 with 0.1 kWh while whole-day integration of
the same samples gives 0.325 kWh. -/
theorem C10_hourly_partition :
    (∀ (db : List ACRow) (uid inv now h : Int) (e : Rat),
      (h, e) ∈ get_hourly_energy_production db uid inv now →
        2 ≤ ((todayRows db uid inv now).filter (fun r => hourOf r.time == h)).length
        ∧ e = dayEnergy ((todayRows db uid inv now).filter (fun r => hourOf r.time == h)))
    ∧ get_hourly_energy_production db10 1 1 36900 = [(9, 1/10)]
    ∧ integrateToday db10 1 1 36900 = 13/40 := by
  refine ⟨?_, ?_, ?_⟩
  · intro db uid inv now h e hmem
    unfold get_hourly_energy_production at hmem
    rw [List.mem_filterMap] at hmem
    obtain ⟨h0, hh0, hf⟩ := hmem
    by_cases hlen : 2 ≤ ((todayRows db uid inv now).filter (fun r => hourOf r.time == h0)).length
    · rw [if_pos hlen] at hf
      simp only [Option.some.injEq, Prod.mk.injEq] at hf
      obtain ⟨h1, h2⟩ := hf
      subst h1
      exact ⟨hlen, h2.symm⟩
    · rw [if_neg hlen] at hf
      cases hf
  · have hm : todayRows db10 1 1 36900 = db10 := by decide
    have hk : hourKeys db10 = [9, 10] := by decide
    have h9 : db10.filter (fun r => hourOf r.time == (9 : Int))
        = [⟨32400, 1, 1, 100, none, none⟩, ⟨34200, 1, 1, 200, none, none⟩] := by decide
    have h10 : db10.filter (fun r => hourOf r.time == (10 : Int))
        = [⟨36900, 1, 1, 300, none, none⟩] := by decide
    have hs9 : sortByTime [⟨32400, 1, 1, 100, none, none⟩, ⟨34200, 1, 1, 200, none, none⟩]
        = [⟨32400, 1, 1, 100, none, none⟩, ⟨34200, 1, 1, 200, none, none⟩] := by decide
    have he9 : dayEnergy [⟨32400, 1, 1, 100, none, none⟩, ⟨34200, 1, 1, 200, none, none⟩]
        = 1/10 := by
      rw [dayEnergy, hs9]
      norm_num [consecEnergy, List.zip_cons_cons, List.zip_nil_right]
    simp only [get_hourly_energy_production, hm, hk, List.filterMap_cons, List.filterMap_nil,
      h9, h10, he9]
    norm_num
  · have hfi : db10.filter (fun r => (r.user_id == (1 : Int)) && (r.inverter_id == (1 : Int))
        && decide (dayStart 36900 ≤ r.time)) = db10 := by decide
    have hs : sortByTime db10 = db10 := by decide
    unfold integrateToday
    rw [hfi, dayEnergy, hs]
    norm_num [consecEnergy, db10, List.zip_cons_cons, List.zip_nil_right]

/-- C10 spot check: the hour-9 entry of the example day is in the result
and carries exactly the integration of hour 9. -/
theorem C10_hourly_partition_spot :
    ((9 : Int), (1 : Rat)/10) ∈ get_hourly_energy_production db10 1 1 36900
    ∧ (2 ≤ ((todayRows db10 1 1 36900).filter (fun r => hourOf r.time == 9)).length
      ∧ (1 : Rat)/10 = dayEnergy ((todayRows db10 1 1 36900).filter
          (fun r => hourOf r.time == 9))) :=
  have hmem : ((9 : Int), (1 : Rat)/10) ∈ get_hourly_energy_production db10 1 1 36900 := by
    rw [C10_hourly_partition.2.1]
    exact List.mem_singleton.mpr rfl
  ⟨hmem, C10_hourly_partition.1 db10 1 1 36900 9 ((1 : Rat)/10) hmem⟩

end SolarBackend
